import Mathlib

/-
  Verification of the Linux process-introspection backend (psutil _pslinux.py):
  a shallow embedding of the process/socket correlation and record-decoding
  subsystem, with theorems settling the frozen claims about it.

  Python strings are modelled as Lean String or List Char; machine text
  operations (split, find, rfind, strip, slicing) are re-implemented with
  CPython semantics.  Fallible Python code is modelled with Option or
  Except PyExc, where PyExc covers the exception classes the source
  raises or catches.
-/

/-- Shorthand turning a string literal into its character list. -/
def cl (s : String) : List Char := s.data

/-- Python whitespace set used by str.split and str.strip. -/
def isPyWs (c : Char) : Bool :=
  c == ' ' || c == '\t' || c == '\n' || c == '\r' || c == '\x0b' || c == '\x0c'

/-- Python s.strip with no argument: drop leading and trailing whitespace. -/
def pyStrip (l : List Char) : List Char :=
  ((l.dropWhile isPyWs).reverse.dropWhile isPyWs).reverse

/-- Python s.split(sep) with a one-character separator: split at every
occurrence, keeping empty pieces (CPython keeps empties between adjacent
separators and at the ends). -/
def splitChar : List Char → Char → List (List Char)
  | [], _ => [[]]
  | c :: rest, sep =>
    let r := splitChar rest sep
    if c == sep then [] :: r
    else
      match r with
      | h :: t => (c :: h) :: t
      | [] => [[c]]

/-- Helper for Python s.split() with no separator: accumulate the current
token (reversed) and cut at whitespace runs, discarding empty tokens. -/
def pySplitWsAux : List Char → List Char → List (List Char)
  | [], acc => if acc.isEmpty then [] else [acc.reverse]
  | c :: rest, acc =>
    if isPyWs c then
      if acc.isEmpty then pySplitWsAux rest []
      else acc.reverse :: pySplitWsAux rest []
    else pySplitWsAux rest (c :: acc)

/-- Python s.split() with no separator: whitespace-run splitting, no empties. -/
def pySplitWs (l : List Char) : List (List Char) := pySplitWsAux l []

/-- Fuel-driven core of Python s.split(None, maxsplit): after maxsplit cuts,
the remainder (leading whitespace stripped, trailing kept) is the last token.
The fuel only bounds recursion depth; callers pass the list length plus one,
which is always sufficient since every step consumes at least one character. -/
def pySplitWsMaxGo : Nat → List Char → Nat → List (List Char)
  | 0, _, _ => []
  | fuel + 1, s, n =>
    let s2 := s.dropWhile isPyWs
    if s2.isEmpty then []
    else if n = 0 then [s2]
    else
      (s2.takeWhile (fun c => !(isPyWs c))) ::
        pySplitWsMaxGo fuel (s2.dropWhile (fun c => !(isPyWs c))) (n - 1)

/-- Python s.split(None, maxsplit). -/
def pySplitWsMax (l : List Char) (maxsplit : Nat) : List (List Char) :=
  pySplitWsMaxGo (l.length + 1) l maxsplit

/-- Python line.split(None, 5), the splitter used on smaps lines. -/
def pySplitWsMax5 (l : List Char) : List (List Char) := pySplitWsMax l 5

/-- Helper for Python s.find(c): index of the first occurrence from offset i,
or minus one. -/
def pyFindAux : List Char → Char → Nat → Int
  | [], _, _ => -1
  | c :: rest, t, i => if c == t then (i : Int) else pyFindAux rest t (i + 1)

/-- Python s.find(c): index of the first occurrence of c, or minus one. -/
def pyFind (l : List Char) (t : Char) : Int := pyFindAux l t 0

/-- Python s.rfind(c): index of the last occurrence of c, or minus one. -/
def pyRfind (l : List Char) (t : Char) : Int :=
  let r := pyFindAux l.reverse t 0
  if r < 0 then -1 else (l.length : Int) - 1 - r

/-- Python s[i:] slicing: a negative start counts from the end, clamped at 0. -/
def pySliceFrom (l : List Char) (i : Int) : List Char :=
  if 0 ≤ i then l.drop i.toNat else l.drop (l.length - (-i).toNat)

/-- Python s.endswith(t) on character lists. -/
def listEndsWith (l suffixChars : List Char) : Bool := suffixChars.isSuffixOf l

/-- Python s.startswith(t) on character lists. -/
def listStartsWith (l prefixChars : List Char) : Bool := prefixChars.isPrefixOf l

/-- Decimal digit value of a character, if it is a digit. -/
def digitVal? (c : Char) : Option Nat :=
  if c.isDigit then some (c.toNat - 48) else none

/-- Helper folding decimal digits into a number. -/
def parseNatAux : List Char → Nat → Option Nat
  | [], acc => some acc
  | c :: rest, acc => do
    let d ← digitVal? c
    parseNatAux rest (acc * 10 + d)

/-- Parse a nonempty all-digit token as a natural number.  Models the
successful cases of Python int(s) and float(s) on the nonnegative integer
tokens found in the proc records; any other shape is a conversion error. -/
def pyParseNat (l : List Char) : Option Nat :=
  if l.isEmpty then none else parseNatAux l 0

/-- Python int(s) on an optionally minus-signed decimal token. -/
def pyInt (l : List Char) : Option Int :=
  match l with
  | '-' :: rest => (pyParseNat rest).map (fun n => -(n : Int))
  | _ => (pyParseNat l).map (fun n => (n : Int))

/-- Hexadecimal digit value, uppercase only: the alphabet accepted by
Python base64.b16decode without casefold. -/
def hexValUpper? (c : Char) : Option Nat :=
  if c.isDigit then some (c.toNat - 48)
  else if 'A' ≤ c && c ≤ 'F' then some (c.toNat - 55)
  else none

/-- Hexadecimal digit value, either case: the alphabet accepted by
Python int(s, 16). -/
def hexValAny? (c : Char) : Option Nat :=
  if c.isDigit then some (c.toNat - 48)
  else if 'A' ≤ c && c ≤ 'F' then some (c.toNat - 55)
  else if 'a' ≤ c && c ≤ 'f' then some (c.toNat - 87)
  else none

/-- Helper folding hexadecimal digits into a number. -/
def parseHexAux : List Char → Nat → Option Nat
  | [], acc => some acc
  | c :: rest, acc => do
    let d ← hexValAny? c
    parseHexAux rest (acc * 16 + d)

/-- Python int(s, 16) on a nonempty unsigned hexadecimal token. -/
def pyIntHex (l : List Char) : Option Nat :=
  if l.isEmpty then none else parseHexAux l 0

/-- Python base64.b16decode: an even-length uppercase-hexadecimal string
decoded to its byte values; anything else raises and is modelled as none. -/
def b16decode : List Char → Option (List Nat)
  | [] => some []
  | c1 :: c2 :: rest => do
    let h ← hexValUpper? c1
    let lo ← hexValUpper? c2
    let bs ← b16decode rest
    return (h * 16 + lo) :: bs
  | _ => none

-- ## errno values and the exception model

/-- errno EPERM. -/
def EPERM : Nat := 1
/-- errno ENOENT. -/
def ENOENT : Nat := 2
/-- errno ESRCH. -/
def ESRCH : Nat := 3
/-- errno EACCES. -/
def EACCES : Nat := 13

/-- The exceptions the embedded code raises or catches.  envError models
EnvironmentError (OSError and IOError) carrying an errno; noSuchProcess and
accessDenied are the two domain failures of the library (the exceptions also
carry the cached process name in the source, a detail irrelevant to the
claims); valueError, keyError and indexError model the builtin Python
exceptions of those names. -/
inductive PyExc where
  | envError (errno : Nat)
  | noSuchProcess (pid : Nat)
  | accessDenied (pid : Nat)
  | valueError (msg : String)
  | keyError (key : String)
  | indexError
  deriving DecidableEq, Repr

/-- The wrap_exceptions decorator of _pslinux.py: run the accessor; an
EnvironmentError with errno ENOENT or ESRCH becomes NoSuchProcess, one with
errno EPERM or EACCES becomes AccessDenied, and every other exception
propagates unchanged. -/
def wrap_exceptions {α : Type} (pid : Nat) (r : Except PyExc α) : Except PyExc α :=
  match r with
  | Except.ok a => Except.ok a
  | Except.error (PyExc.envError e) =>
    if e = ENOENT ∨ e = ESRCH then Except.error (PyExc.noSuchProcess pid)
    else if e = EPERM ∨ e = EACCES then Except.error (PyExc.accessDenied pid)
    else Except.error (PyExc.envError e)
  | Except.error exc => Except.error exc

/-- C2: for every accessor wrapped by wrap_exceptions, an EnvironmentError
with errno ENOENT or ESRCH maps to NoSuchProcess (the ProcessGone failure),
one with errno EPERM or EACCES maps to AccessDenied, any other
EnvironmentError propagates unchanged, any non-environment exception
propagates unchanged, and successful results pass through. -/
theorem C2_exception_translator {α : Type} (pid e : Nat) (exc : PyExc) (a : α) :
    ((e = ENOENT ∨ e = ESRCH) →
      wrap_exceptions pid (Except.error (PyExc.envError e)) =
        (Except.error (PyExc.noSuchProcess pid) : Except PyExc α)) ∧
    ((e = EPERM ∨ e = EACCES) →
      wrap_exceptions pid (Except.error (PyExc.envError e)) =
        (Except.error (PyExc.accessDenied pid) : Except PyExc α)) ∧
    (¬(e = ENOENT ∨ e = ESRCH) → ¬(e = EPERM ∨ e = EACCES) →
      wrap_exceptions pid (Except.error (PyExc.envError e)) =
        (Except.error (PyExc.envError e) : Except PyExc α)) ∧
    ((∀ en, exc ≠ PyExc.envError en) →
      wrap_exceptions pid (Except.error exc) = (Except.error exc : Except PyExc α)) ∧
    (wrap_exceptions pid (Except.ok a) = Except.ok a) := by
  refine ⟨?_, ?_, ?_, ?_, rfl⟩
  · intro h
    simp [wrap_exceptions, h]
  · intro h
    have hne : ¬(e = ENOENT ∨ e = ESRCH) := by
      simp only [ENOENT, ESRCH, EPERM, EACCES] at h ⊢
      omega
    simp [wrap_exceptions, hne, h]
  · intro h1 h2
    simp [wrap_exceptions, h1, h2]
  · intro h
    cases exc with
    | envError en => exact absurd rfl (h en)
    | noSuchProcess p => rfl
    | accessDenied p => rfl
    | valueError m => rfl
    | keyError k => rfl
    | indexError => rfl

/-- Witness for C2 at concrete errno values: ENOENT maps to NoSuchProcess,
EACCES maps to AccessDenied, EIO (5) propagates, ValueError propagates. -/
theorem C2_exception_translator_witness :
    wrap_exceptions 7 (Except.error (PyExc.envError 2)) =
      (Except.error (PyExc.noSuchProcess 7) : Except PyExc Nat) ∧
    wrap_exceptions 7 (Except.error (PyExc.envError 13)) =
      (Except.error (PyExc.accessDenied 7) : Except PyExc Nat) ∧
    wrap_exceptions 7 (Except.error (PyExc.envError 5)) =
      (Except.error (PyExc.envError 5) : Except PyExc Nat) ∧
    wrap_exceptions 7 (Except.error (PyExc.valueError ("x"))) =
      (Except.error (PyExc.valueError ("x")) : Except PyExc Nat) :=
  ⟨(C2_exception_translator 7 2 PyExc.indexError (0 : Nat)).1 (Or.inl rfl),
   (C2_exception_translator 7 13 PyExc.indexError (0 : Nat)).2.1 (Or.inr rfl),
   (C2_exception_translator 7 5 PyExc.indexError (0 : Nat)).2.2.1 (by decide) (by decide),
   (C2_exception_translator 7 5 (PyExc.valueError ("x")) (0 : Nat)).2.2.2.1
     (by intro en h; cases h)⟩

-- ## The address codec (Process._decode_address)

/-- Host byte order, the value of sys.byteorder. -/
inductive ByteOrder where
  | little
  | big
  deriving DecidableEq, Repr

/-- The socket address families the connection code distinguishes. -/
inductive Family where
  | af_inet
  | af_inet6
  | af_unix
  deriving DecidableEq, Repr

/-- A decoded endpoint as the Python code returns it: the empty tuple for a
zero port, an (ip, port) pair for IP sockets, a bound path string for UNIX
sockets, or Python None (the remote end of a UNIX socket). -/
inductive PyAddr where
  | empty
  | ipport (ip : String) (port : Nat)
  | upath (p : String)
  | pynone
  deriving DecidableEq, Repr

/-- The little-endian 32-bit word assembled from four bytes, as
struct.unpack with format <4I reads each group of four. -/
def leWord (b0 b1 b2 b3 : Nat) : Nat :=
  b0 + 256 * b1 + 65536 * b2 + 16777216 * b3

/-- The four bytes struct.pack with format >I writes for one word. -/
def packBEWord (w : Nat) : List Nat :=
  [w / 16777216 % 256, w / 65536 % 256, w / 256 % 256, w % 256]

/-- The four bytes struct.pack with format <I writes for one word. -/
def packLEWord (w : Nat) : List Nat :=
  [w % 256, w / 256 % 256, w / 65536 % 256, w / 16777216 % 256]

/-- struct.unpack of format <4I: sixteen bytes to four little-endian words;
any other length raises struct.error, modelled as none. -/
def unpackLE4I (bs : List Nat) : Option (Nat × Nat × Nat × Nat) :=
  match bs with
  | [a0, a1, a2, a3, b0, b1, b2, b3, c0, c1, c2, c3, d0, d1, d2, d3] =>
    some (leWord a0 a1 a2 a3, leWord b0 b1 b2 b3, leWord c0 c1 c2 c3, leWord d0 d1 d2 d3)
  | _ => none

/-- The IPv4 branch of _decode_address applied to the decoded bytes:
reverse them on a little-endian host, keep them as-is on a big-endian one. -/
def ipv4Transform : ByteOrder → List Nat → List Nat
  | ByteOrder.little, bs => bs.reverse
  | ByteOrder.big, bs => bs

/-- The IPv6 branch of _decode_address applied to the decoded bytes:
struct.pack of format >4I over struct.unpack of format <4I on a little-endian
host, and struct.pack of format <4I over struct.unpack of format <4I on a
big-endian one, exactly as the two code paths of the source. -/
def ipv6Transform (bo : ByteOrder) (bs : List Nat) : Option (List Nat) :=
  match unpackLE4I bs with
  | none => none
  | some (w0, w1, w2, w3) =>
    match bo with
    | ByteOrder.little =>
      some (packBEWord w0 ++ packBEWord w1 ++ packBEWord w2 ++ packBEWord w3)
    | ByteOrder.big =>
      some (packLEWord w0 ++ packLEWord w1 ++ packLEWord w2 ++ packLEWord w3)

/-- The specification notion of reversing the bytes within each four-byte
word of an address. -/
def revWords4 : List Nat → List Nat
  | b0 :: b1 :: b2 :: b3 :: rest => b3 :: b2 :: b1 :: b0 :: revWords4 rest
  | l => l

/-- inet_ntop for AF_INET: four bytes rendered as dotted decimal. -/
def inet_ntop4 (bs : List Nat) : Option String :=
  match bs with
  | [a, b, c, d] =>
    some (Nat.repr a ++ "." ++ Nat.repr b ++ "." ++ Nat.repr c ++ "." ++ Nat.repr d)
  | _ => none

/-- The eight 16-bit groups of an IPv6 address read big-endian from its
bytes, as the C inet_ntop does. -/
def bytesToWords : List Nat → List Nat
  | b0 :: b1 :: rest => (b0 * 256 + b1) :: bytesToWords rest
  | _ => []

/-- Maximal runs of zero words as (start, length) pairs, scanned left to
right; helper carrying the run in progress. -/
def zeroRunsGo : List Nat → Nat → Option (Nat × Nat) → List (Nat × Nat)
  | [], _, none => []
  | [], _, some r => [r]
  | w :: rest, i, cur =>
    if w = 0 then
      match cur with
      | none => zeroRunsGo rest (i + 1) (some (i, 1))
      | some (b, n) => zeroRunsGo rest (i + 1) (some (b, n + 1))
    else
      match cur with
      | none => zeroRunsGo rest (i + 1) none
      | some r => r :: zeroRunsGo rest (i + 1) none

/-- The best zero run of the C inet_ntop for AF_INET6: the leftmost run of
maximal length, discarded when shorter than two words. -/
def bestZeroRun (ws : List Nat) : Option (Nat × Nat) :=
  let best := (zeroRunsGo ws 0 none).foldl
    (fun acc r =>
      match acc with
      | none => some r
      | some a => if r.2 > a.2 then some r else acc)
    none
  match best with
  | some (b, n) => if n ≥ 2 then some (b, n) else none
  | none => none

/-- Whether index i lies inside the best zero run. -/
def inZeroRun (best : Option (Nat × Nat)) (i : Nat) : Bool :=
  match best with
  | some (b, n) => decide (b ≤ i ∧ i < b + n)
  | none => false

/-- Whether index i is the start of the best zero run. -/
def isRunBase (best : Option (Nat × Nat)) (i : Nat) : Bool :=
  match best with
  | some (b, _) => b = i
  | none => false

/-- The encapsulated-IPv4 special case of the C inet_ntop for AF_INET6,
tested when rendering reaches word six. -/
def ntop6Special (best : Option (Nat × Nat)) (ws : List Nat) : Bool :=
  match best with
  | some (b, n) =>
    b = 0 && (n = 6 || (n = 7 && ws.getD 7 0 ≠ 1) || (n = 5 && ws.getD 5 0 = 65535))
  | none => false

/-- Lowercase hexadecimal rendering of one 16-bit group, no leading zeros. -/
def hexLower (n : Nat) : String := String.mk (Nat.toDigits 16 n)

/-- The rendering loop of the C inet_ntop for AF_INET6 over word indices:
the best zero run prints a single colon at its start, other positions print
a separating colon (except at index zero) and the group in hexadecimal, and
the encapsulated-IPv4 case prints the trailing bytes dotted-decimal and
stops. -/
def ntop6Loop (ws v4 : List Nat) (best : Option (Nat × Nat)) : List Nat → String
  | [] => ""
  | i :: rest =>
    if inZeroRun best i then
      (if isRunBase best i then (":") else "") ++ ntop6Loop ws v4 best rest
    else
      (if i ≠ 0 then (":") else "") ++
      (if i = 6 && ntop6Special best ws then (inet_ntop4 (v4.drop 12)).getD ""
       else hexLower (ws.getD i 0) ++ ntop6Loop ws v4 best rest)

/-- inet_ntop for AF_INET6, following the C library renderer: zero-run
compression, encapsulated-IPv4 forms, and a trailing colon when the best
run reaches the end. -/
def inet_ntop6 (bs : List Nat) : Option String :=
  if bs.length = 16 then
    let ws := bytesToWords bs
    let best := bestZeroRun ws
    let core := ntop6Loop ws bs best [0, 1, 2, 3, 4, 5, 6, 7]
    let tail :=
      match best with
      | some (b, n) => if b + n = 8 then (":") else ""
      | none => ""
    some (core ++ tail)
  else none

/-- The body of Process._decode_address once the token is split at the
colon: parse the port as big-endian hexadecimal; a zero port is the empty
result regardless of the address bytes; otherwise decode the hex address
and apply the family- and byte-order-specific word transformation before
rendering with inet_ntop.  Any Python exception is modelled as none. -/
def decodeAddressParts (ip port : List Char) (family : Family) (bo : ByteOrder) :
    Option PyAddr := do
  let portN ← pyIntHex port
  if portN = 0 then
    return PyAddr.empty
  else if family = Family.af_inet then do
    let bs ← b16decode ip
    let bs := ipv4Transform bo bs
    let s ← inet_ntop4 bs
    return PyAddr.ipport s portN
  else do
    let bs ← b16decode ip
    let bs2 ← ipv6Transform bo bs
    let s ← inet_ntop6 bs2
    return PyAddr.ipport s portN

/-- Process._decode_address on a character list: split the packed token at
the colon (any other shape fails the tuple unpacking) and decode the two
parts. -/
def decodeAddressL (addr : List Char) (family : Family) (bo : ByteOrder) : Option PyAddr :=
  match splitChar addr ':' with
  | [ip, port] => decodeAddressParts ip port family bo
  | _ => none

/-- Process._decode_address on a string. -/
def decodeAddress (addr : String) (family : Family) (bo : ByteOrder) : Option PyAddr :=
  decodeAddressL addr.data family bo

-- ## Theorems C4 and C6 about the codec

/-- Bytes below 256 packed big-endian from the little-endian word they form
come out reversed. -/
theorem packBEWord_leWord (b0 b1 b2 b3 : Nat)
    (h0 : b0 < 256) (h1 : b1 < 256) (h2 : b2 < 256) (h3 : b3 < 256) :
    packBEWord (leWord b0 b1 b2 b3) = [b3, b2, b1, b0] := by
  simp only [packBEWord, leWord, List.cons.injEq, and_true]
  refine ⟨?_, ?_, ?_, ?_⟩ <;> omega

/-- Bytes below 256 packed little-endian from the little-endian word they
form come out unchanged. -/
theorem packLEWord_leWord (b0 b1 b2 b3 : Nat)
    (h0 : b0 < 256) (h1 : b1 < 256) (h2 : b2 < 256) (h3 : b3 < 256) :
    packLEWord (leWord b0 b1 b2 b3) = [b0, b1, b2, b3] := by
  simp only [packLEWord, leWord, List.cons.injEq, and_true]
  refine ⟨?_, ?_, ?_, ?_⟩ <;> omega

/-- C4: the address-decoding byte transformations reverse the bytes within
each four-byte word on a little-endian host and leave the bytes unchanged
on a big-endian host, on both the IPv4 path (one word) and the IPv6 path
(four words), the latter two being the distinct struct pack/unpack code
paths of the source. -/
theorem C4_word_reversal_per_branch (bs : List Nat) (hb : ∀ b ∈ bs, b < 256) :
    (bs.length = 4 →
      ipv4Transform ByteOrder.little bs = revWords4 bs ∧
      ipv4Transform ByteOrder.big bs = bs) ∧
    (bs.length = 16 →
      ipv6Transform ByteOrder.little bs = some (revWords4 bs) ∧
      ipv6Transform ByteOrder.big bs = some bs) := by
  constructor
  · intro h4
    match bs, h4 with
    | [b0, b1, b2, b3], _ =>
      exact ⟨rfl, rfl⟩
  · intro h16
    match bs, h16 with
    | [a0, a1, a2, a3, b0, b1, b2, b3, c0, c1, c2, c3, d0, d1, d2, d3], _ =>
      simp only [List.mem_cons, forall_eq_or_imp] at hb
      obtain ⟨ha0, ha1, ha2, ha3, hb0, hb1, hb2, hb3, hc0, hc1, hc2, hc3, hd0, hd1, hd2, hd3, -⟩ := hb
      constructor
      · simp only [ipv6Transform, unpackLE4I]
        rw [packBEWord_leWord a0 a1 a2 a3 ha0 ha1 ha2 ha3,
            packBEWord_leWord b0 b1 b2 b3 hb0 hb1 hb2 hb3,
            packBEWord_leWord c0 c1 c2 c3 hc0 hc1 hc2 hc3,
            packBEWord_leWord d0 d1 d2 d3 hd0 hd1 hd2 hd3]
        rfl
      · simp only [ipv6Transform, unpackLE4I]
        rw [packLEWord_leWord a0 a1 a2 a3 ha0 ha1 ha2 ha3,
            packLEWord_leWord b0 b1 b2 b3 hb0 hb1 hb2 hb3,
            packLEWord_leWord c0 c1 c2 c3 hc0 hc1 hc2 hc3,
            packLEWord_leWord d0 d1 d2 d3 hd0 hd1 hd2 hd3]
        rfl

/-- Witness for C4 at concrete byte lists of lengths four and sixteen. -/
theorem C4_word_reversal_per_branch_witness :
    (ipv4Transform ByteOrder.little [1, 2, 3, 4] = revWords4 [1, 2, 3, 4] ∧
      ipv4Transform ByteOrder.big [1, 2, 3, 4] = [1, 2, 3, 4]) ∧
    (ipv6Transform ByteOrder.little
        [0, 1, 2, 3, 4, 5, 6, 7, 8, 9, 10, 11, 12, 13, 14, 255] =
      some (revWords4 [0, 1, 2, 3, 4, 5, 6, 7, 8, 9, 10, 11, 12, 13, 14, 255]) ∧
      ipv6Transform ByteOrder.big
        [0, 1, 2, 3, 4, 5, 6, 7, 8, 9, 10, 11, 12, 13, 14, 255] =
      some [0, 1, 2, 3, 4, 5, 6, 7, 8, 9, 10, 11, 12, 13, 14, 255]) :=
  ⟨(C4_word_reversal_per_branch [1, 2, 3, 4] (by decide)).1 rfl,
   (C4_word_reversal_per_branch [0, 1, 2, 3, 4, 5, 6, 7, 8, 9, 10, 11, 12, 13, 14, 255]
     (by decide)).2 rfl⟩

/-- C6: a packed token whose port field is the literal 0000 decodes to the
explicit empty endpoint, whatever the address characters, family and byte
order are. -/
theorem C6_zero_port_empty (ip : List Char) (family : Family) (bo : ByteOrder) :
    decodeAddressParts ip (cl ("0000")) family bo = some PyAddr.empty := rfl

-- ## The spec-side encoder and the round-trip claim C5

/-- Uppercase hexadecimal digit. -/
def hexDigitUpper (n : Nat) : Char :=
  if n < 10 then Char.ofNat (48 + n) else Char.ofNat (55 + n)

/-- One byte as two uppercase hexadecimal characters. -/
def hexUpper2 (b : Nat) : List Char :=
  [hexDigitUpper (b / 16 % 16), hexDigitUpper (b % 16)]

/-- One port as two big-endian bytes in uppercase hexadecimal. -/
def hexUpper4 (p : Nat) : List Char :=
  hexUpper2 (p / 256 % 256) ++ hexUpper2 (p % 256)

/-- inet_pton for AF_INET: parse dotted decimal into four bytes. -/
def inet_pton4 (s : String) : Option (List Nat) :=
  match splitChar s.data '.' with
  | [a, b, c, d] => do
    let na ← pyParseNat a
    let nb ← pyParseNat b
    let nc ← pyParseNat c
    let nd ← pyParseNat d
    if na < 256 ∧ nb < 256 ∧ nc < 256 ∧ nd < 256 then some [na, nb, nc, nd] else none
  | _ => none

/-- inet_pton for AF_INET6, restricted to the full eight-group form, which
suffices for the representative round-trip values. -/
def inet_pton6Full (s : String) : Option (List Nat) := do
  let groups := splitChar s.data ':'
  if groups.length = 8 then do
    let ws ← groups.mapM (fun g => do
      let w ← pyIntHex g
      if w < 65536 then some w else none)
    return (ws.map (fun w => [w / 256, w % 256])).flatten
  else none

/-- Modelled from the spec: the packed-token encoder is not part of the
source (only the decoder is); per the specification of the kernel format,
the address is stored as 32-bit words in host-native byte order, so its
network-order bytes are reversed within each four-byte word on a
little-endian host, then rendered as uppercase hexadecimal, followed by a
colon and the port as a two-byte big-endian uppercase hexadecimal number. -/
def encode_address (ip : String) (port : Nat) (family : Family) (bo : ByteOrder) :
    Option String := do
  let bs ← if family = Family.af_inet then inet_pton4 ip else inet_pton6Full ip
  let bs2 := if bo = ByteOrder.little then revWords4 bs else bs
  return String.mk ((bs2.map hexUpper2).flatten ++ ':' :: hexUpper4 port)

/-- Decode after encode, the round-trip composition of claim C5. -/
def addrRoundTrip (ip : String) (port : Nat) (family : Family) (bo : ByteOrder) :
    Option PyAddr :=
  (encode_address ip port family bo).bind (fun t => decodeAddress t family bo)

/-- C5: representative IPv4 and IPv6 addresses with nonzero ports round-trip
through the packed encoding on both byte-order branches; concretely the
token 0100007F:0050 decodes as IPv4 on a little-endian host to the pair of
127.0.0.1 and port 80, and the port is parsed as a big-endian two-byte
hexadecimal number regardless of family (the same 0016 port field yields 22
under both the IPv4 and IPv6 decoders, and the two docstring examples of
the source are reproduced). -/
theorem C5_address_round_trip :
    addrRoundTrip ("127.0.0.1") 80 Family.af_inet ByteOrder.little =
      some (PyAddr.ipport ("127.0.0.1") 80) ∧
    addrRoundTrip ("10.0.0.5") 22 Family.af_inet ByteOrder.big =
      some (PyAddr.ipport ("10.0.0.5") 22) ∧
    addrRoundTrip ("1:2:3:4:5:6:7:8") 443 Family.af_inet6 ByteOrder.little =
      some (PyAddr.ipport ("1:2:3:4:5:6:7:8") 443) ∧
    addrRoundTrip ("1:2:3:4:5:6:7:8") 443 Family.af_inet6 ByteOrder.big =
      some (PyAddr.ipport ("1:2:3:4:5:6:7:8") 443) ∧
    encode_address ("127.0.0.1") 80 Family.af_inet ByteOrder.little =
      some ("0100007F:0050") ∧
    decodeAddress ("0100007F:0050") Family.af_inet ByteOrder.little =
      some (PyAddr.ipport ("127.0.0.1") 80) ∧
    decodeAddress ("0500000A:0016") Family.af_inet ByteOrder.little =
      some (PyAddr.ipport ("10.0.0.5") 22) ∧
    decodeAddressParts (cl ("00000000000000000000000001000000")) (cl ("0016"))
      Family.af_inet6 ByteOrder.little = some (PyAddr.ipport ("::1") 22) ∧
    decodeAddress ("0000000000000000FFFF00000100007F:9E49") Family.af_inet6 ByteOrder.little =
      some (PyAddr.ipport ("::ffff:127.0.0.1") 40521) :=
  ⟨rfl, rfl, rfl, rfl, rfl, rfl, rfl, rfl, rfl⟩

-- ## The stat-record parsers (Process.cpu_times, create_time, terminal, name)

/-- Process.cpu_times of the source, up to the extraction of the two tick
fields: strip the stat record, cut after the FIRST closing paren plus two
characters, split the remainder on single spaces, and read fields 11 and 12
(the source then converts them with float and divides by CLOCK_TICKS, which
does not change which record fields are read). -/
def proc_cpu_times_ticks (content : List Char) : Option (Nat × Nat) := do
  let st := pyStrip content
  let st2 := pySliceFrom st (pyFind st ')' + 2)
  let values := splitChar st2 ' '
  let u ← values[11]?
  let s ← values[12]?
  let un ← pyParseNat u
  let sn ← pyParseNat s
  return (un, sn)

/-- Process.create_time of the source, up to the extraction of the start
time in ticks: strip the stat record, cut after the LAST closing paren plus
two characters, split on single spaces, and read field 19 (the source then
divides by CLOCK_TICKS and adds the boot time, which does not change which
record field is read). -/
def proc_create_time_ticks (content : List Char) : Option Nat := do
  let st := pyStrip content
  let st2 := pySliceFrom st (pyRfind st ')' + 2)
  let values := splitChar st2 ' '
  let v ← values[19]?
  pyParseNat v

/-- Process.terminal of the source, up to the controlling terminal id: split
the whole unstripped stat record on single spaces and convert field 6 with
int (the source then maps the id through the terminal map, which does not
change which record field is read). -/
def proc_terminal_tty (content : List Char) : Option Int := do
  let t ← (splitChar content ' ')[6]?
  pyInt t

/-- Process.name of the source: field 1 of the space-split stat record with
every paren character removed. -/
def proc_name (content : List Char) : Option String := do
  let t ← (splitChar content ' ')[1]?
  return String.mk (t.filter (fun c => (c != '(') && (c != ')')))

/-- The stat record used to refute claim C7: process 1 with the name
a) b (containing both a closing paren and a space), followed by the state
letter and the numeric fields 100 .. 120, so the true positional values
are utime 110 (offset 11 after the name), stime 111 (offset 12),
controlling terminal id 103 (offset 4), and start time 118 (offset 19). -/
def c7Stat : List Char :=
  cl ("1 (a) b) S 100 101 102 103 104 105 106 107 108 109 110 111 112 113 114 115 116 117 118 119 120")

/-- C7 counterexample: on a stat record whose process name contains a
closing paren and a space, cpu_times locates the FIRST closing paren and so
extracts (109, 110) instead of the true tick pair (110, 111), and terminal
reads space-split field 6 and so extracts 102 instead of the true terminal
id 103; create_time, which does use the last closing paren, still extracts
the true start time 118.  This refutes the claim that every routine reading
the remaining positional fields locates the name end at the last closing
paren and extracts those fields correctly for such names. -/
theorem C7_counterexample :
    proc_cpu_times_ticks c7Stat = some (109, 110) ∧
    proc_terminal_tty c7Stat = some 102 ∧
    proc_create_time_ticks c7Stat = some 118 ∧
    ((109, 110) : Nat × Nat) ≠ ((110, 111) : Nat × Nat) ∧
    ((102 : Int) ≠ (103 : Int)) := by
  refine ⟨?_, ?_, ?_, by decide, by decide⟩ <;> rfl

-- ## String lemmas for the amended stat-parsing claim

/-- Join tokens with single spaces, the inverse of single-space splitting. -/
def joinSp : List (List Char) → List Char
  | [] => []
  | [f] => f
  | f :: g :: rest => f ++ ' ' :: joinSp (g :: rest)

/-- Splitting a separator-free piece yields just that piece. -/
theorem splitChar_no_sep (f : List Char) (sep : Char) (h : sep ∉ f) :
    splitChar f sep = [f] := by
  induction f with
  | nil => rfl
  | cons c f2 ih =>
    simp only [List.mem_cons, not_or] at h
    obtain ⟨h1, h2⟩ := h
    have hb : (c == sep) = false := beq_eq_false_iff_ne.mpr (fun hh => h1 hh.symm)
    simp [splitChar, hb, ih h2]

/-- Splitting past a separator-free piece peels it off. -/
theorem splitChar_append_sep (f rest : List Char) (sep : Char) (h : sep ∉ f) :
    splitChar (f ++ sep :: rest) sep = f :: splitChar rest sep := by
  induction f with
  | nil => simp [splitChar]
  | cons c f2 ih =>
    simp only [List.mem_cons, not_or] at h
    obtain ⟨h1, h2⟩ := h
    have hb : (c == sep) = false := beq_eq_false_iff_ne.mpr (fun hh => h1 hh.symm)
    simp [splitChar, hb, ih h2]

/-- Single-space splitting inverts the single-space join of nonempty,
space-free token lists. -/
theorem splitChar_joinSp (fields : List (List Char)) (hne : fields ≠ [])
    (hsp : ∀ f ∈ fields, ' ' ∉ f) :
    splitChar (joinSp fields) ' ' = fields := by
  induction fields with
  | nil => exact absurd rfl hne
  | cons f rest ih =>
    cases rest with
    | nil => exact splitChar_no_sep f ' ' (hsp f (by simp))
    | cons g rest2 =>
      rw [show joinSp (f :: g :: rest2) = f ++ ' ' :: joinSp (g :: rest2) from rfl]
      rw [splitChar_append_sep f _ ' ' (hsp f (by simp))]
      rw [ih (by simp) (fun x hx => hsp x (List.mem_cons_of_mem f hx))]

/-- A non-space character absent from every token is absent from the join. -/
theorem not_mem_joinSp (c : Char) (fields : List (List Char)) (hc : c ≠ ' ')
    (h : ∀ f ∈ fields, c ∉ f) : c ∉ joinSp fields := by
  induction fields with
  | nil => simp [joinSp]
  | cons f rest ih =>
    cases rest with
    | nil => simpa [joinSp] using h f (by simp)
    | cons g rest2 =>
      rw [show joinSp (f :: g :: rest2) = f ++ ' ' :: joinSp (g :: rest2) from rfl]
      simp only [List.mem_append, List.mem_cons, not_or]
      exact ⟨h f (by simp), hc, ih (fun x hx => h x (List.mem_cons_of_mem f hx))⟩

/-- The find helper located exactly at the first occurrence. -/
theorem pyFindAux_append (a b : List Char) (t : Char) (ha : t ∉ a) (i : Nat) :
    pyFindAux (a ++ t :: b) t i = ((i + a.length : Nat) : Int) := by
  induction a generalizing i with
  | nil => simp [pyFindAux]
  | cons c a2 ih =>
    simp only [List.mem_cons, not_or] at ha
    obtain ⟨h1, h2⟩ := ha
    have hb : (c == t) = false := beq_eq_false_iff_ne.mpr (fun hh => h1 hh.symm)
    simp only [List.cons_append, pyFindAux, hb, Bool.false_eq_true, if_false, List.append_eq]
    rw [ih h2]
    simp only [List.length_cons]
    push_cast
    omega

/-- Python find of a character that occurs only after a clean leading piece
gives the length of that piece. -/
theorem pyFind_eq (pfx sfx : List Char) (t : Char) (h : t ∉ pfx) :
    pyFind (pfx ++ t :: sfx) t = (pfx.length : Int) := by
  rw [pyFind, pyFindAux_append pfx sfx t h 0]
  push_cast
  omega

/-- Python rfind of a character that does not occur after its last
occurrence gives the position of that occurrence. -/
theorem pyRfind_eq (pfx sfx : List Char) (t : Char) (h : t ∉ sfx) :
    pyRfind (pfx ++ t :: sfx) t = (pfx.length : Int) := by
  simp only [pyRfind]
  have hrev : (pfx ++ t :: sfx).reverse = sfx.reverse ++ t :: pfx.reverse := by
    simp [List.reverse_append]
  rw [hrev, pyFindAux_append sfx.reverse pfx.reverse t (by simpa using h) 0]
  simp only [List.length_reverse, List.length_append, List.length_cons, Nat.zero_add]
  rw [if_neg (by omega)]
  omega

/-- Slicing two characters past a leading piece drops the piece and the two
characters. -/
theorem pySliceFrom_two (pfx rest : List Char) (c d : Char) :
    pySliceFrom (pfx ++ c :: d :: rest) ((pfx.length : Int) + 2) = rest := by
  simp only [pySliceFrom]
  rw [if_pos (by omega)]
  rw [show ((pfx.length : Int) + 2).toNat = pfx.length + 2 by omega]
  rw [show pfx ++ c :: d :: rest = (pfx ++ [c, d]) ++ rest by simp]
  rw [show pfx.length + 2 = (pfx ++ [c, d]).length by simp]
  exact List.drop_left _ _

/-- C7 amended (changed only as the counterexample forces): create_time
locates the name end at the LAST closing paren and then splits on spaces,
so its positional field (start time in ticks, offset 19) is extracted
correctly even when the process name contains parentheses or spaces;
cpu_times locates the FIRST closing paren, so its fields (user and kernel
ticks, offsets 11 and 12) are extracted correctly only when no closing
paren precedes the one ending the name; and terminal splits the whole
record on spaces at fixed index 6, so the controlling terminal id is
extracted correctly only when every token, the name included, is free of
spaces. -/
theorem C7_amended_stat_parsing :
    (∀ (stat pfx : List Char) (fields : List (List Char)) (s : List Char) (n : Nat),
      pyStrip stat = stat →
      stat = pfx ++ ')' :: ' ' :: joinSp fields →
      (∀ f ∈ fields, ' ' ∉ f ∧ ')' ∉ f) →
      fields ≠ [] →
      fields[19]? = some s →
      pyParseNat s = some n →
      proc_create_time_ticks stat = some n) ∧
    (∀ (stat pfx : List Char) (fields : List (List Char)) (u s : List Char) (un sn : Nat),
      pyStrip stat = stat →
      stat = pfx ++ ')' :: ' ' :: joinSp fields →
      ')' ∉ pfx →
      (∀ f ∈ fields, ' ' ∉ f ∧ ')' ∉ f) →
      fields ≠ [] →
      fields[11]? = some u →
      fields[12]? = some s →
      pyParseNat u = some un →
      pyParseNat s = some sn →
      proc_cpu_times_ticks stat = some (un, sn)) ∧
    (∀ (tokens : List (List Char)) (t : List Char) (v : Int),
      (∀ f ∈ tokens, ' ' ∉ f) →
      tokens ≠ [] →
      tokens[6]? = some t →
      pyInt t = some v →
      proc_terminal_tty (joinSp tokens) = some v) := by
  refine ⟨?_, ?_, ?_⟩
  · intro stat pfx fields s n hstrip hshape hf hne h19 hp
    subst hshape
    have hnot : ')' ∉ (' ' :: joinSp fields) := by
      simp only [List.mem_cons, not_or]
      exact ⟨by decide, not_mem_joinSp ')' fields (by decide) (fun f hf2 => (hf f hf2).2)⟩
    simp only [proc_create_time_ticks]
    rw [hstrip, pyRfind_eq pfx (' ' :: joinSp fields) ')' hnot,
        pySliceFrom_two pfx (joinSp fields) ')' ' ',
        splitChar_joinSp fields hne (fun f hf2 => (hf f hf2).1)]
    simp [h19, hp]
  · intro stat pfx fields u s un sn hstrip hshape hpfx hf hne h11 h12 hpu hps
    subst hshape
    simp only [proc_cpu_times_ticks]
    rw [hstrip, pyFind_eq pfx (' ' :: joinSp fields) ')' hpfx,
        pySliceFrom_two pfx (joinSp fields) ')' ' ',
        splitChar_joinSp fields hne (fun f hf2 => (hf f hf2).1)]
    simp [h11, h12, hpu, hps]
  · intro tokens t v hsp hne h6 hv
    simp only [proc_terminal_tty]
    rw [splitChar_joinSp tokens hne hsp]
    simp [h6, hv]

/-- Witness for the amended C7 at a concrete record with the name
a) b (parens and a space): create_time extracts 118 through the last paren,
while cpu_times succeeds on a paren-free prefix and terminal on space-free
tokens of a conventional record. -/
theorem C7_amended_stat_parsing_witness :
    proc_create_time_ticks c7Stat = some 118 ∧
    proc_cpu_times_ticks
      (cl ("1 (init) S 100 101 102 103 104 105 106 107 108 109 110 111 112 113")) =
      some (110, 111) ∧
    proc_terminal_tty
      (cl ("1 (init) S 100 101 102 103 104 105 106 107 108 109 110 111 112 113")) =
      some 103 := by
  refine ⟨?_, ?_, ?_⟩
  · exact C7_amended_stat_parsing.1 c7Stat (cl ("1 (a) b"))
      [cl ("S"), cl ("100"), cl ("101"), cl ("102"), cl ("103"), cl ("104"),
       cl ("105"), cl ("106"), cl ("107"), cl ("108"), cl ("109"), cl ("110"),
       cl ("111"), cl ("112"), cl ("113"), cl ("114"), cl ("115"), cl ("116"),
       cl ("117"), cl ("118"), cl ("119"), cl ("120")]
      (cl ("118")) 118 (by decide) (by decide) (by decide) (by decide)
      (by decide) (by decide)
  · exact C7_amended_stat_parsing.2.1
      (cl ("1 (init) S 100 101 102 103 104 105 106 107 108 109 110 111 112 113"))
      (cl ("1 (init"))
      [cl ("S"), cl ("100"), cl ("101"), cl ("102"), cl ("103"), cl ("104"),
       cl ("105"), cl ("106"), cl ("107"), cl ("108"), cl ("109"), cl ("110"),
       cl ("111"), cl ("112"), cl ("113")]
      (cl ("110")) (cl ("111")) 110 111 (by decide) (by decide) (by decide)
      (by decide) (by decide) (by decide) (by decide) (by decide) (by decide)
  · exact C7_amended_stat_parsing.2.2
      [cl ("1"), cl ("(init)"), cl ("S"), cl ("100"), cl ("101"), cl ("102"),
       cl ("103"), cl ("104"), cl ("105"), cl ("106"), cl ("107"), cl ("108"),
       cl ("109"), cl ("110"), cl ("111"), cl ("112"), cl ("113")]
      (cl ("103")) 103 (by decide) (by decide) (by decide) (by decide)

-- ## The memory-map aggregator (Process.memory_maps)

/-- Insertion-ordered dictionary, as a Python dict behaves for the uses
made of it here (later assignments to the same key overwrite in place). -/
def dictSet {κ β : Type} [DecidableEq κ] : List (κ × β) → κ → β → List (κ × β)
  | [], k, v => [(k, v)]
  | (k0, v0) :: rest, k, v =>
    if k0 = k then (k0, v) :: rest else (k0, v0) :: dictSet rest k v

/-- Dictionary lookup, none when the key is absent (a Python KeyError on
bracket access). -/
def dictGet? {κ β : Type} [DecidableEq κ] : List (κ × β) → κ → Option β
  | [], _ => none
  | (k0, v0) :: rest, k => if k0 = k then some v0 else dictGet? rest k

/-- Python dict.get(key, default). -/
def dictGetD {κ β : Type} [DecidableEq κ] (d : List (κ × β)) (k : κ) (v : β) : β :=
  (dictGet? d k).getD v

/-- The statistics dictionary accumulated by the memory-map block reader. -/
abbrev SmapsDict := List (List Char × Int)

/-- One region summary as yielded by Process.memory_maps: the header fields
kept (address range, permissions, path) and the ten statistics in bytes. -/
structure RegionSummary where
  addr : List Char
  perms : List Char
  path : List Char
  rss : Int
  size : Int
  pss : Int
  shared_clean : Int
  shared_dirty : Int
  private_clean : Int
  private_dirty : Int
  referenced : Int
  anonymous : Int
  swap : Int
  deriving DecidableEq, Repr

/-- The get_blocks generator of Process.memory_maps: walk the lines after
the first; a line whose first field does not end in a colon closes the
current block (the header paired with the statistics dictionary as it
stands) and starts a new one; a statistic line stores its value times 1024
under its key; a non-numeric value is skipped when the key starts with
VmFlags: and raises ValueError otherwise.  The dictionary is created once
and NEVER reset between blocks, exactly as in the source, so values carry
over from one block to the next. -/
def getBlocks : List (List Char) → List Char → SmapsDict →
    Except PyExc (List (List Char × SmapsDict))
  | [], header, data => Except.ok [(header, data)]
  | line :: rest, header, data =>
    match pySplitWsMax5 line with
    | [] => Except.error PyExc.indexError
    | f0 :: fs =>
      if listEndsWith f0 [':'] then
        match fs with
        | [] => Except.error PyExc.indexError
        | f1 :: _ =>
          match pyInt f1 with
          | some v => getBlocks rest header (dictSet data f0 (v * 1024))
          | none =>
            if listStartsWith f0 (cl ("VmFlags:")) then getBlocks rest header data
            else Except.error (PyExc.valueError ("interpret line"))
      else
        match getBlocks rest line data with
        | Except.error e => Except.error e
        | Except.ok blocks => Except.ok ((header, data) :: blocks)

/-- The summary tuple Process.memory_maps yields for one block: the
resident value is read with bracket access (raising on absence, handled by
the caller), every other known statistic with dict.get and default zero;
an empty path becomes the anonymous marker, a nonempty one is stripped. -/
def regionOf (addr perms path : List Char) (rss : Int) (d : SmapsDict) : RegionSummary :=
  { addr := addr
    perms := perms
    path := if path.isEmpty then cl ("[anon]") else pyStrip path
    rss := rss
    size := dictGetD d (cl ("Size:")) 0
    pss := dictGetD d (cl ("Pss:")) 0
    shared_clean := dictGetD d (cl ("Shared_Clean:")) 0
    shared_dirty := dictGetD d (cl ("Shared_Dirty:")) 0
    private_clean := dictGetD d (cl ("Private_Clean:")) 0
    private_dirty := dictGetD d (cl ("Private_Dirty:")) 0
    referenced := dictGetD d (cl ("Referenced:")) 0
    anonymous := dictGetD d (cl ("Anonymous:")) 0
    swap := dictGetD d (cl ("Swap:")) 0 }

/-- The field handling of one block summary: six header fields, or five
re-unpacked with an empty path (any other count is the uncaught ValueError
of the source), then the resident value read with bracket access, so a
missing Rss: key is a KeyError. -/
def summarizeFields (fields : List (List Char)) (d : SmapsDict) :
    Except PyExc RegionSummary :=
  match fields with
  | [addr, perms, _offset, _dev, _inode, path] =>
    match dictGet? d (cl ("Rss:")) with
    | none => Except.error (PyExc.keyError ("Rss:"))
    | some rss => Except.ok (regionOf addr perms path rss d)
  | [addr, perms, _offset, _dev, _inode] =>
    match dictGet? d (cl ("Rss:")) with
    | none => Except.error (PyExc.keyError ("Rss:"))
    | some rss => Except.ok (regionOf addr perms [] rss d)
  | _ => Except.error (PyExc.valueError ("unpack"))

/-- Turn one (header, statistics) block into a summary. -/
def summarize (b : List Char × SmapsDict) : Except PyExc RegionSummary :=
  summarizeFields (pySplitWsMax5 b.1) b.2

/-- Summarize every block in file order, stopping at the first failure,
as the consuming loop of the generator does. -/
def summarizeAll : List (List Char × SmapsDict) → Except PyExc (List RegionSummary)
  | [] => Except.ok []
  | b :: rest =>
    match summarize b with
    | Except.error e => Except.error e
    | Except.ok r =>
      match summarizeAll rest with
      | Except.error e => Except.error e
      | Except.ok rs => Except.ok (r :: rs)

/-- Process.memory_maps on the list of lines of the smaps file: an empty
file yields nothing; otherwise the first line seeds the first block header
and the blocks are aggregated and summarized in file order. -/
def memory_maps (lines : List (List Char)) : Except PyExc (List RegionSummary) :=
  match lines with
  | [] => Except.ok []
  | first :: rest =>
    match getBlocks rest first [] with
    | Except.error e => Except.error e
    | Except.ok blocks => summarizeAll blocks

/-- The two-block smaps input used to refute claim C8: block one carries
Rss 4 kB and Swap 8 kB, block two carries only Rss 4 kB. -/
def c8Lines : List (List Char) :=
  [cl ("00400000-00401000 r-xp 00000000 08:01 123 /bin/foo"),
   cl ("Rss: 4 kB"),
   cl ("Swap: 8 kB"),
   cl ("00500000-00501000 rw-p 00000000 08:01 124 /bin/bar"),
   cl ("Rss: 4 kB")]

/-- C8 counterexample: on a well-formed two-block input whose second block
has no Swap line, the second summary reports swap 8192 - the value leaked
from the FIRST block, because the statistics dictionary is created once and
never reset between blocks - instead of the zero the claim requires for a
known key absent from the block. -/
theorem C8_counterexample :
    memory_maps c8Lines =
      Except.ok
        [{ addr := cl ("00400000-00401000"), perms := cl ("r-xp"),
           path := cl ("/bin/foo"), rss := 4096, size := 0, pss := 0,
           shared_clean := 0, shared_dirty := 0, private_clean := 0,
           private_dirty := 0, referenced := 0, anonymous := 0, swap := 8192 },
         { addr := cl ("00500000-00501000"), perms := cl ("rw-p"),
           path := cl ("/bin/bar"), rss := 4096, size := 0, pss := 0,
           shared_clean := 0, shared_dirty := 0, private_clean := 0,
           private_dirty := 0, referenced := 0, anonymous := 0, swap := 8192 }] ∧
    (8192 : Int) ≠ 0 := ⟨rfl, by decide⟩

/-- C9 counterexample: a statistic line with an unknown key and a
non-numeric value (Foo: bar baz) inside a block makes the whole aggregation
fail with ValueError instead of being skipped, refuting the claim that such
lines are never treated as parse errors. -/
theorem C9_counterexample :
    memory_maps
      [cl ("00400000-00401000 r-xp 00000000 08:01 123 /bin/foo"),
       cl ("Rss: 4 kB"),
       cl ("Foo: bar baz")] =
    Except.error (PyExc.valueError ("interpret line")) := rfl

/-- C9 amended (changed only as the counterexample forces): a statistic
line with a non-numeric value is skipped only when its key starts with
VmFlags:; a line with an unknown key but a numeric value is accepted and
merely ignored by the summary; any other non-numeric value line is a
ValueError.  Shown on a one-block input: adding a VmFlags line or an
unknown numeric line leaves the summary unchanged, while an unknown
non-numeric line is an error. -/
theorem C9_amended_skip_rules :
    memory_maps
      [cl ("00400000-00401000 r-xp 00000000 08:01 123 /bin/foo"),
       cl ("Rss: 4 kB"), cl ("VmFlags: rd ex mr")] =
    memory_maps
      [cl ("00400000-00401000 r-xp 00000000 08:01 123 /bin/foo"),
       cl ("Rss: 4 kB")] ∧
    memory_maps
      [cl ("00400000-00401000 r-xp 00000000 08:01 123 /bin/foo"),
       cl ("Rss: 4 kB"), cl ("Bogus: 7 kB")] =
    memory_maps
      [cl ("00400000-00401000 r-xp 00000000 08:01 123 /bin/foo"),
       cl ("Rss: 4 kB")] ∧
    memory_maps
      [cl ("00400000-00401000 r-xp 00000000 08:01 123 /bin/foo"),
       cl ("Rss: 4 kB"), cl ("Weird: xyz")] =
    Except.error (PyExc.valueError ("interpret line")) := ⟨rfl, rfl, rfl⟩

-- ## The general two-block aggregation lemma and the amended C8

/-- Fold a list of parsed statistic entries (key, value token, value) into
the dictionary the block reader builds, kilobytes scaled to bytes. -/
def statFold (d : SmapsDict) (es : List (List Char × List Char × Int)) : SmapsDict :=
  es.foldl (fun acc e => dictSet acc e.1 (e.2.2 * 1024)) d

/-- A line the block reader consumes as the statistic entry e: it splits to
the key of e, then the value token of e, the key ends in a colon, and the
token converts to the value of e. -/
def StatLineOK (line : List Char) (e : List Char × List Char × Int) : Prop :=
  (∃ tail, pySplitWsMax5 line = e.1 :: e.2.1 :: tail) ∧
  listEndsWith e.1 [':'] = true ∧
  pyInt e.2.1 = some e.2.2

/-- Running the block reader over statistic lines folds their entries into
the dictionary and continues with the remaining lines. -/
theorem getBlocks_statlines (lines : List (List Char))
    (es : List (List Char × List Char × Int))
    (h : List.Forall₂ StatLineOK lines es) (rest : List (List Char))
    (hd : List Char) (d : SmapsDict) :
    getBlocks (lines ++ rest) hd d = getBlocks rest hd (statFold d es) := by
  induction h generalizing d with
  | nil => rfl
  | @cons line e lines2 es2 hle htail ih =>
    obtain ⟨⟨tail, hsplit⟩, hends, hint⟩ := hle
    show getBlocks (line :: (lines2 ++ rest)) hd d = _
    rw [show getBlocks (line :: (lines2 ++ rest)) hd d =
      (match pySplitWsMax5 line with
       | [] => Except.error PyExc.indexError
       | f0 :: fs =>
         if listEndsWith f0 [':'] then
           match fs with
           | [] => Except.error PyExc.indexError
           | f1 :: _ =>
             match pyInt f1 with
             | some v => getBlocks (lines2 ++ rest) hd (dictSet d f0 (v * 1024))
             | none =>
               if listStartsWith f0 (cl ("VmFlags:")) then getBlocks (lines2 ++ rest) hd d
               else Except.error (PyExc.valueError ("interpret line"))
         else
           match getBlocks (lines2 ++ rest) line d with
           | Except.error e2 => Except.error e2
           | Except.ok blocks => Except.ok ((hd, d) :: blocks)) from rfl]
    rw [hsplit]
    simp only [hends, if_true]
    rw [hint]
    show getBlocks (lines2 ++ rest) hd (dictSet d e.1 (e.2.2 * 1024)) =
      getBlocks rest hd (statFold d (e :: es2))
    rw [ih (dictSet d e.1 (e.2.2 * 1024))]
    rfl

/-- C8 amended (changed only as the counterexample forces): a well-formed
two-block input whose blocks both carry the resident key produces exactly
two region summaries in input order, but the statistics dictionary is built
cumulatively: the first summary reads the dictionary folded from the first
block only (so its absent known keys default to zero), while the second
summary reads the dictionary folded from the first block AND then the
second, so a known key absent from the second block inherits the most
recent value from the first block and defaults to zero only when it appears
in neither; a block whose cumulative dictionary lacks the resident key
fails with KeyError rather than defaulting to zero. -/
theorem C8_amended_two_block (h1 h2 : List Char)
    (a1 p1 o1 dv1 i1 pa1 a2 p2 o2 dv2 i2 pa2 : List Char)
    (s1 s2 : List (List Char))
    (e1 e2 : List (List Char × List Char × Int))
    (r1 r2 : Int)
    (hh1 : pySplitWsMax5 h1 = [a1, p1, o1, dv1, i1, pa1])
    (hh1e : listEndsWith a1 [':'] = false)
    (hh2 : pySplitWsMax5 h2 = [a2, p2, o2, dv2, i2, pa2])
    (hh2e : listEndsWith a2 [':'] = false)
    (hs1 : List.Forall₂ StatLineOK s1 e1)
    (hs2 : List.Forall₂ StatLineOK s2 e2)
    (hr1 : dictGet? (statFold [] e1) (cl ("Rss:")) = some r1)
    (hr2 : dictGet? (statFold (statFold [] e1) e2) (cl ("Rss:")) = some r2) :
    memory_maps (h1 :: s1 ++ h2 :: s2) =
      Except.ok
        [regionOf a1 p1 pa1 r1 (statFold [] e1),
         regionOf a2 p2 pa2 r2 (statFold (statFold [] e1) e2)] := by
  have hgb2 : getBlocks s2 h2 (statFold [] e1) =
      Except.ok [(h2, statFold (statFold [] e1) e2)] := by
    have h0 := getBlocks_statlines s2 e2 hs2 [] h2 (statFold [] e1)
    rw [List.append_nil] at h0
    rw [h0]
    rfl
  have hsum1 : summarize (h1, statFold [] e1) =
      Except.ok (regionOf a1 p1 pa1 r1 (statFold [] e1)) := by
    show summarizeFields (pySplitWsMax5 h1) (statFold [] e1) = _
    rw [hh1]
    simp only [summarizeFields]
    rw [hr1]
  have hsum2 : summarize (h2, statFold (statFold [] e1) e2) =
      Except.ok (regionOf a2 p2 pa2 r2 (statFold (statFold [] e1) e2)) := by
    show summarizeFields (pySplitWsMax5 h2) (statFold (statFold [] e1) e2) = _
    rw [hh2]
    simp only [summarizeFields]
    rw [hr2]
  have hgb : getBlocks (h2 :: s2) h1 (statFold [] e1) =
      Except.ok [(h1, statFold [] e1), (h2, statFold (statFold [] e1) e2)] := by
    simp only [getBlocks]
    rw [hh2]
    simp only [hh2e, Bool.false_eq_true, if_false]
    rw [hgb2]
  show (match getBlocks (s1 ++ h2 :: s2) h1 [] with
        | Except.error e => Except.error e
        | Except.ok blocks => summarizeAll blocks) = _
  rw [getBlocks_statlines s1 e1 hs1 (h2 :: s2) h1 [], hgb]
  show summarizeAll [(h1, statFold [] e1), (h2, statFold (statFold [] e1) e2)] = _
  simp only [summarizeAll, hsum1, hsum2]

/-- Witness for the amended C8 at the concrete two-block input of the
counterexample, exhibiting the Swap value of the first block leaking into
the second summary. -/
theorem C8_amended_two_block_witness :
    memory_maps c8Lines =
      Except.ok
        [regionOf (cl ("00400000-00401000")) (cl ("r-xp")) (cl ("/bin/foo")) 4096
           (statFold [] [(cl ("Rss:"), cl ("4"), 4), (cl ("Swap:"), cl ("8"), 8)]),
         regionOf (cl ("00500000-00501000")) (cl ("rw-p")) (cl ("/bin/bar")) 4096
           (statFold (statFold [] [(cl ("Rss:"), cl ("4"), 4), (cl ("Swap:"), cl ("8"), 8)])
             [(cl ("Rss:"), cl ("4"), 4)])] :=
  C8_amended_two_block
    (cl ("00400000-00401000 r-xp 00000000 08:01 123 /bin/foo"))
    (cl ("00500000-00501000 rw-p 00000000 08:01 124 /bin/bar"))
    (cl ("00400000-00401000")) (cl ("r-xp")) (cl ("00000000")) (cl ("08:01"))
    (cl ("123")) (cl ("/bin/foo"))
    (cl ("00500000-00501000")) (cl ("rw-p")) (cl ("00000000")) (cl ("08:01"))
    (cl ("124")) (cl ("/bin/bar"))
    [cl ("Rss: 4 kB"), cl ("Swap: 8 kB")] [cl ("Rss: 4 kB")]
    [(cl ("Rss:"), cl ("4"), 4), (cl ("Swap:"), cl ("8"), 8)]
    [(cl ("Rss:"), cl ("4"), 4)]
    4096 4096
    rfl rfl rfl rfl
    (List.Forall₂.cons ⟨⟨[cl ("kB")], rfl⟩, rfl, rfl⟩
      (List.Forall₂.cons ⟨⟨[cl ("kB")], rfl⟩, rfl, rfl⟩ List.Forall₂.nil))
    (List.Forall₂.cons ⟨⟨[cl ("kB")], rfl⟩, rfl, rfl⟩ List.Forall₂.nil)
    rfl rfl

-- ## Connection enumeration (Process.connections)

/-- The TCP state table of the source (TCP_STATUSES): hexadecimal state code
to named state; looked up with bracket access, so an unknown code is a
KeyError. -/
def TCP_STATUSES (code : List Char) : Option String :=
  if code = cl ("01") then some ("ESTABLISHED")
  else if code = cl ("02") then some ("SYN_SENT")
  else if code = cl ("03") then some ("SYN_RECV")
  else if code = cl ("04") then some ("FIN_WAIT1")
  else if code = cl ("05") then some ("FIN_WAIT2")
  else if code = cl ("06") then some ("TIME_WAIT")
  else if code = cl ("07") then some ("CLOSE")
  else if code = cl ("08") then some ("CLOSE_WAIT")
  else if code = cl ("09") then some ("LAST_ACK")
  else if code = cl ("0A") then some ("LISTEN")
  else if code = cl ("0B") then some ("CLOSING")
  else none

/-- The no-status marker CONN_NONE of psutil._common. -/
def CONN_NONE : String := "NONE"

/-- socket.SOCK_STREAM on Linux. -/
def SOCK_STREAM : Int := 1

/-- socket.SOCK_DGRAM on Linux. -/
def SOCK_DGRAM : Int := 2

/-- One connection record, the nt_proc_conn tuple: descriptor, family,
socket type, local endpoint, remote endpoint, status. -/
structure ConnRec where
  fd : Int
  family : Family
  type_ : Int
  laddr : PyAddr
  raddr : PyAddr
  status : String
  deriving DecidableEq, Repr

/-- The process state one connections call observes: the descriptor links
under the fd directory of the process (descriptor name paired with the
readlink result, none when readlink raises OSError), the kernel protocol
tables by path (the lines of the table, or the exception its open raises),
and whether the process still exists when os.stat re-checks after the
scan. -/
structure ProcState where
  fdLinks : List (String × Option String)
  tables : String → Except PyExc (List (List Char))
  procExistsAtEnd : Bool

/-- The inode map building loop of Process.connections: for each descriptor
whose readlink succeeded and whose target starts with the socket marker,
map the inode text (the target minus the marker and the closing bracket) to
the descriptor name, later entries overwriting earlier ones as dict
assignment does; a failed readlink is skipped. -/
def socket_inodes (fdLinks : List (String × Option String)) : List (String × String) :=
  fdLinks.foldl
    (fun acc p =>
      match p.2 with
      | none => acc
      | some target =>
        if listStartsWith (cl target) (cl ("socket:[")) then
          dictSet acc (String.mk (((cl target).drop 8).dropLast)) p.1
        else acc)
    []

/-- One row of an IP protocol table, as the inner process function of
Process.connections reads it: unpack the first ten whitespace fields, skip
the row unless its inode is in the map, decode both endpoints, name the
TCP state for stream sockets (datagram sockets get the no-status marker),
and build the record with the mapped descriptor. -/
def processInetLine (inodes : List (String × String)) (bo : ByteOrder)
    (family : Family) (type_ : Option Int) (line : List Char) :
    Except PyExc (List ConnRec) :=
  match (pySplitWs line).take 10 with
  | [_sl, laddr, raddr, status, _f4, _f5, _f6, _f7, _f8, inode] =>
    match dictGet? inodes (String.mk inode) with
    | none => Except.ok []
    | some fds =>
      match decodeAddressL laddr family bo with
      | none => Except.error (PyExc.valueError ("decode"))
      | some la =>
        match decodeAddressL raddr family bo with
        | none => Except.error (PyExc.valueError ("decode"))
        | some ra =>
          match
            (if type_ = some SOCK_STREAM then
              match TCP_STATUSES status with
              | none => Except.error (PyExc.keyError (String.mk status))
              | some st => Except.ok st
            else Except.ok CONN_NONE : Except PyExc String)
          with
          | Except.error e => Except.error e
          | Except.ok st =>
            match pyInt (cl fds) with
            | none => Except.error (PyExc.valueError ("int"))
            | some fd =>
              Except.ok [{ fd := fd, family := family, type_ := type_.getD 0,
                           laddr := la, raddr := ra, status := st }]
  | _ => Except.error (PyExc.valueError ("unpack"))

/-- One row of the UNIX table: unpack seven fields, skip unless the inode
is mapped, take the optional bound path when the row has exactly eight
tokens, and build the record with the type converted from the row, the
path as local endpoint, no remote endpoint and the no-status marker. -/
def processUnixLine (inodes : List (String × String)) (line : List Char) :
    Except PyExc (List ConnRec) :=
  let tokens := pySplitWs line
  match tokens.take 7 with
  | [_a, _b, _c, _d, ty, _e, inode] =>
    match dictGet? inodes (String.mk inode) with
    | none => Except.ok []
    | some fds =>
      let path := if tokens.length = 8 then tokens.getLastD [] else []
      match pyInt (cl fds), pyInt ty with
      | some fd, some tyv =>
        Except.ok [{ fd := fd, family := Family.af_unix, type_ := tyv,
                     laddr := PyAddr.upath (String.mk path), raddr := PyAddr.pynone,
                     status := CONN_NONE }]
      | _, _ => Except.error (PyExc.valueError ("int"))
  | _ => Except.error (PyExc.valueError ("unpack"))

/-- The row loop of the inner process function: IP families go through the
IP row reader, the UNIX family through the UNIX one (the source also has a
raise ValueError(family) arm for any other family, unreachable since the
static kind table only produces these three), appending the kept rows in
file order and aborting at the first exception. -/
def processRows (inodes : List (String × String)) (bo : ByteOrder)
    (family : Family) (type_ : Option Int) :
    List (List Char) → Except PyExc (List ConnRec)
  | [] => Except.ok []
  | line :: rest =>
    match
      (if family = Family.af_inet ∨ family = Family.af_inet6 then
        processInetLine inodes bo family type_ line
      else
        processUnixLine inodes line)
    with
    | Except.error e => Except.error e
    | Except.ok cs =>
      match processRows inodes bo family type_ rest with
      | Except.error e => Except.error e
      | Except.ok more => Except.ok (cs ++ more)

/-- The inner process function of Process.connections: open the protocol
table; an IOError with errno ENOENT on a path ending in the character 6 is
treated as the table of an unsupported IPv6 stack and yields no rows, any
other failure propagates; otherwise skip the header line and read the
remaining rows. -/
def processTable (tables : String → Except PyExc (List (List Char)))
    (inodes : List (String × String)) (bo : ByteOrder) (file : String)
    (family : Family) (type_ : Option Int) : Except PyExc (List ConnRec) :=
  match tables file with
  | Except.error (PyExc.envError en) =>
    if en = ENOENT ∧ listEndsWith (cl file) (cl ("6")) then Except.ok []
    else Except.error (PyExc.envError en)
  | Except.error e => Except.error e
  | Except.ok lns =>
    match lns with
    | [] => Except.ok []
    | _header :: rows => processRows inodes bo family type_ rows

/-- One (protocol file, family, socket type) triple of the static kind
table; the socket type is none for the UNIX table. -/
abbrev ConnTriple := String × Family × Option Int

/-- The tcp4 triple. -/
def tcp4T : ConnTriple := ("tcp", Family.af_inet, some SOCK_STREAM)
/-- The tcp6 triple. -/
def tcp6T : ConnTriple := ("tcp6", Family.af_inet6, some SOCK_STREAM)
/-- The udp4 triple. -/
def udp4T : ConnTriple := ("udp", Family.af_inet, some SOCK_DGRAM)
/-- The udp6 triple. -/
def udp6T : ConnTriple := ("udp6", Family.af_inet6, some SOCK_DGRAM)
/-- The unix triple. -/
def unixT : ConnTriple := ("unix", Family.af_unix, none)

/-- The static tmap of Process.connections: each kind maps to its fixed
list of triples in membership order; an absent kind is none. -/
def tmapLookup (kind : String) : Option (List ConnTriple) :=
  if kind = "all" then some [tcp4T, tcp6T, udp4T, udp6T, unixT]
  else if kind = "tcp" then some [tcp4T, tcp6T]
  else if kind = "tcp4" then some [tcp4T]
  else if kind = "tcp6" then some [tcp6T]
  else if kind = "udp" then some [udp4T, udp6T]
  else if kind = "udp4" then some [udp4T]
  else if kind = "udp6" then some [udp6T]
  else if kind = "unix" then some [unixT]
  else if kind = "inet" then some [tcp4T, tcp6T, udp4T, udp6T]
  else if kind = "inet4" then some [tcp4T, udp4T]
  else if kind = "inet6" then some [tcp6T, udp6T]
  else none

/-- The fixed set of accepted kind values. -/
def valid_kinds : List String :=
  ["all", "tcp", "tcp4", "tcp6", "udp", "udp4", "udp6", "unix", "inet", "inet4", "inet6"]

/-- The ValueError raised for an unknown kind (the source message also
interpolates the accepted kinds; the offending kind is kept here). -/
def invalid_kind_error (kind : String) : PyExc :=
  PyExc.valueError ("invalid kind argument " ++ kind)

/-- A kind outside the fixed set has no entry in the static table. -/
theorem tmapLookup_eq_none (kind : String) (h : kind ∉ valid_kinds) :
    tmapLookup kind = none := by
  simp only [valid_kinds, List.mem_cons, List.not_mem_nil, or_false, not_or] at h
  obtain ⟨h1, h2, h3, h4, h5, h6, h7, h8, h9, h10, h11⟩ := h
  simp [tmapLookup, h1, h2, h3, h4, h5, h6, h7, h8, h9, h10, h11]

/-- The scan over the triples of the requested kind: tables are processed
in membership order, their kept rows concatenated, the first exception
aborting the scan. -/
def scan_all (tables : String → Except PyExc (List (List Char)))
    (inodes : List (String × String)) (bo : ByteOrder) :
    List ConnTriple → Except PyExc (List ConnRec)
  | [] => Except.ok []
  | t :: rest =>
    match processTable tables inodes bo ("/proc/net/" ++ t.1) t.2.1 t.2.2 with
    | Except.error e => Except.error e
    | Except.ok part =>
      match scan_all tables inodes bo rest with
      | Except.error e => Except.error e
      | Except.ok more => Except.ok (part ++ more)

/-- The body of Process.connections in source order: build the inode map
from the descriptor directory FIRST; an empty map returns the empty list
at once; only then is the kind validated against the static table; the
selected tables are scanned; and finally os.stat re-checks the process,
raising OSError with errno ENOENT (modelled by procExistsAtEnd) when it is
gone, discarding the gathered rows. -/
def connections_raw (st : ProcState) (bo : ByteOrder) (kind : String) :
    Except PyExc (List ConnRec) :=
  let inodes := socket_inodes st.fdLinks
  if inodes = [] then Except.ok []
  else
    match tmapLookup kind with
    | none => Except.error (invalid_kind_error kind)
    | some triples =>
      match scan_all st.tables inodes bo triples with
      | Except.error e => Except.error e
      | Except.ok rows =>
        if st.procExistsAtEnd then Except.ok rows
        else Except.error (PyExc.envError ENOENT)

/-- Process.connections as called through the wrap_exceptions decorator. -/
def connections (st : ProcState) (pid : Nat) (bo : ByteOrder) (kind : String) :
    Except PyExc (List ConnRec) :=
  wrap_exceptions pid (connections_raw st bo kind)

-- ## Theorems C1, C3 and C10 about connection enumeration

/-- A process state with one ordinary (non-socket) descriptor, every table
open failing, the process alive at the end. -/
def c1EmptyState : ProcState :=
  { fdLinks := [("0", some ("/dev/null"))],
    tables := fun _ => Except.error (PyExc.envError ENOENT),
    procExistsAtEnd := true }

/-- A process state with one socket descriptor (fd 3, inode 100), every
table open failing, the process alive at the end. -/
def c1SockState : ProcState :=
  { fdLinks := [("3", some ("socket:[100]"))],
    tables := fun _ => Except.error (PyExc.envError ENOENT),
    procExistsAtEnd := true }

/-- C1 counterexample: called with the invalid kind bogus on a process with
no socket descriptors, connections returns the empty list instead of
failing with the InvalidArgument ValueError - the descriptor directory is
listed and the empty-map early return fires BEFORE the kind is validated,
refuting the claim that an unknown kind fails before any file is touched
regardless of the socket descriptors of the process. -/
theorem C1_counterexample :
    connections c1EmptyState 1 ByteOrder.little ("bogus") = Except.ok [] ∧
    Except.ok ([] : List ConnRec) ≠ Except.error (invalid_kind_error ("bogus")) :=
  ⟨rfl, fun h => Except.noConfusion h⟩

/-- C1 amended (changed only as the counterexample forces): the unknown
kind check happens after the descriptor directory is listed; when the
process has no socket descriptors the call returns the empty list without
validating the kind at all, and when it has at least one socket descriptor
an unknown kind fails with the InvalidArgument ValueError before any
protocol table is opened (the conclusion holds for every table function,
so no table is consulted). -/
theorem C1_amended_validation_order (st : ProcState) (pid : Nat) (bo : ByteOrder)
    (kind : String) (hk : kind ∉ valid_kinds) :
    (socket_inodes st.fdLinks = [] → connections st pid bo kind = Except.ok []) ∧
    (socket_inodes st.fdLinks ≠ [] →
      connections st pid bo kind = Except.error (invalid_kind_error kind)) := by
  have hlook : tmapLookup kind = none := tmapLookup_eq_none kind hk
  constructor
  · intro h
    simp [connections, connections_raw, h, wrap_exceptions]
  · intro h
    simp [connections, connections_raw, h, hlook, wrap_exceptions, invalid_kind_error]

/-- Witness for the amended C1: the socketless state returns the empty
list on kind bogus, the one-socket state fails with the InvalidArgument
ValueError. -/
theorem C1_amended_validation_order_witness :
    connections c1EmptyState 1 ByteOrder.little ("bogus") = Except.ok [] ∧
    connections c1SockState 1 ByteOrder.little ("bogus") =
      Except.error (invalid_kind_error ("bogus")) :=
  ⟨(C1_amended_validation_order c1EmptyState 1 ByteOrder.little ("bogus")
      (by decide)).1 rfl,
   (C1_amended_validation_order c1SockState 1 ByteOrder.little ("bogus")
      (by decide)).2 (by decide)⟩

/-- C3: when the process has socket descriptors, the kind is valid and the
scan of all its selected tables completes with the gathered rows, the
liveness re-check decides the outcome: a vanished process turns into
NoSuchProcess (the ProcessGone failure, through the wrapped OSError of
os.stat) and the gathered rows are discarded, while a live process returns
the complete row list - so callers get a complete list or an error, never
a partial list. -/
theorem C3_liveness_recheck (st : ProcState) (pid : Nat) (bo : ByteOrder)
    (kind : String) (triples : List ConnTriple) (rows : List ConnRec)
    (hne : socket_inodes st.fdLinks ≠ [])
    (hk : tmapLookup kind = some triples)
    (hscan : scan_all st.tables (socket_inodes st.fdLinks) bo triples = Except.ok rows) :
    (st.procExistsAtEnd = false →
      connections st pid bo kind = Except.error (PyExc.noSuchProcess pid)) ∧
    (st.procExistsAtEnd = true → connections st pid bo kind = Except.ok rows) := by
  constructor <;> intro h <;>
    simp [connections, connections_raw, hne, hk, hscan, h, wrap_exceptions, ENOENT, ESRCH]

/-- A process state with one socket descriptor whose inode appears in a
one-row TCP table, and with the process gone by the end of the scan. -/
def c3State : ProcState :=
  { fdLinks := [("3", some ("socket:[100]"))],
    tables := fun p =>
      if p = "/proc/net/tcp" then
        Except.ok
          [cl ("  sl  local_address rem_address   st tx_queue rx_queue tr tm when retrnsmt uid timeout inode"),
           cl ("   0: 0100007F:0050 00000000:0000 0A 00000000:00000000 00:00000000 00000000     0        0 100 1")]
      else Except.error (PyExc.envError ENOENT),
    procExistsAtEnd := false }

/-- Witness for C3: the one-row scan completes with a LISTEN record, yet
the vanished process makes the call fail with NoSuchProcess. -/
theorem C3_liveness_recheck_witness :
    connections c3State 1 ByteOrder.little ("tcp4") =
      Except.error (PyExc.noSuchProcess 1) :=
  (C3_liveness_recheck c3State 1 ByteOrder.little ("tcp4") [tcp4T]
    [{ fd := 3, family := Family.af_inet, type_ := 1,
       laddr := PyAddr.ipport ("127.0.0.1") 80, raddr := PyAddr.empty,
       status := "LISTEN" }]
    (by decide) rfl rfl).1 rfl

/-- C10: during connection enumeration, a failed table open with errno
ENOENT is silently treated as an empty table exactly when the table path
ends in the character 6 (the IPv6 tables tcp6 and udp6), and propagates as
the same error on any other path. -/
theorem C10_ipv6_table_absent (tables : String → Except PyExc (List (List Char)))
    (inodes : List (String × String)) (bo : ByteOrder) (file : String)
    (family : Family) (type_ : Option Int)
    (h : tables file = Except.error (PyExc.envError ENOENT)) :
    (listEndsWith (cl file) (cl ("6")) = true →
      processTable tables inodes bo file family type_ = Except.ok []) ∧
    (listEndsWith (cl file) (cl ("6")) = false →
      processTable tables inodes bo file family type_ =
        Except.error (PyExc.envError ENOENT)) := by
  constructor <;> intro h6 <;> simp [processTable, h, h6]

/-- Witness for C10: with every open failing with ENOENT, the tcp6 table
contributes no rows while the tcp table propagates the error. -/
theorem C10_ipv6_table_absent_witness :
    processTable (fun _ => Except.error (PyExc.envError ENOENT)) [] ByteOrder.little
      ("/proc/net/tcp6") Family.af_inet6 (some SOCK_STREAM) = Except.ok [] ∧
    processTable (fun _ => Except.error (PyExc.envError ENOENT)) [] ByteOrder.little
      ("/proc/net/tcp") Family.af_inet (some SOCK_STREAM) =
      Except.error (PyExc.envError ENOENT) :=
  ⟨(C10_ipv6_table_absent (fun _ => Except.error (PyExc.envError ENOENT)) []
      ByteOrder.little ("/proc/net/tcp6") Family.af_inet6 (some SOCK_STREAM) rfl).1
      (by decide),
   (C10_ipv6_table_absent (fun _ => Except.error (PyExc.envError ENOENT)) []
      ByteOrder.little ("/proc/net/tcp") Family.af_inet (some SOCK_STREAM) rfl).2
      (by decide)⟩
